import Mathlib

set_option autoImplicit false

/-!
Shallow embedding of the api-dispatcher program (dispatcher.go).

The program fans a batch of HTTP request descriptors out concurrently and
collects one outcome line per descriptor into a single stream.  JSON text
lexing and the network transport are external collaborators (encoding/json,
net/http): JSON documents are modelled as an abstract syntax tree `Json`,
and the network as an oracle `Network` supplying the result of request
construction, transmission and response-body reading.  Concurrency is
modelled by quantifying over delivery orders (permutations of the stream).
-/

namespace ApiDispatcher

/-- Model of a decoded JSON document, the output of the external JSON lexer
(encoding/json).  Object fields are kept in document order, duplicates
allowed, exactly as the decoder visits them. -/
inductive Json where
  | null
  | bool (b : Bool)
  | num (n : Int)
  | str (s : String)
  | arr (elems : List Json)
  | obj (fields : List (String × Json))

/-- Embedding of `type RequestConfig struct` (dispatcher.go:18).  Go maps of
strings are modelled as association lists with unique keys; a nil `Headers`
map behaves exactly like an empty one in the program, so `headers` is a plain
list, while `Body`'s nil / non-nil distinction is observable
(`config.Body != nil` at dispatcher.go:42) and is kept as an `Option`. -/
structure RequestConfig where
  url : String
  method : String
  headers : List (String × String)
  body : Option (List (String × String))
  deriving DecidableEq

/-- Embedding of `type Config struct` (dispatcher.go:25). -/
structure Config where
  requests : List RequestConfig
  deriving DecidableEq

/-- Go map write `m[k] = v`: replace the value when the key is present,
otherwise add the pair. -/
def mapSet (m : List (String × String)) (k v : String) : List (String × String) :=
  if m.any (fun p => p.1 == k) then
    m.map (fun p => if p.1 = k then (k, v) else p)
  else
    m ++ [(k, v)]

/-- Model of encoding/json decoding a JSON value into a Go string variable
currently holding `cur`: a JSON string stores its text, JSON null leaves the
variable untouched, any other value is a type error. -/
def decodeStringInto (cur : String) : Json → Except String String
  | .str s => .ok s
  | .null => .ok cur
  | _ => .error "cannot unmarshal value into field of type string"

/-- Model of encoding/json filling a Go `map[string]string` from the fields of
a JSON object: each value decodes into a fresh zero string and is stored with
its key, later duplicate keys overwriting earlier ones. -/
def decodeStringMapFields : List (String × Json) → List (String × String) →
    Except String (List (String × String))
  | [], acc => .ok acc
  | (k, j) :: rest, acc =>
    match decodeStringInto "" j with
    | .error e => .error e
    | .ok v => decodeStringMapFields rest (mapSet acc k v)

/-- Model of encoding/json decoding a JSON value into a Go `map[string]string`
currently holding `cur` (`none` models a nil map): an object adds its decoded
fields to the map, allocating it when nil; null leaves the map untouched; any
other value is a type error. -/
def decodeStringMapInto (cur : Option (List (String × String))) :
    Json → Except String (Option (List (String × String)))
  | .obj fields =>
    match decodeStringMapFields fields (match cur with | some m => m | none => []) with
    | .error e => .error e
    | .ok m => .ok (some m)
  | .null => .ok cur
  | _ => .error "cannot unmarshal value into field of type map"

/-- Character-wise case folding (ASCII), the core of `strings.EqualFold` as
encoding/json uses it to match JSON keys against field tags. -/
def equalFoldChars : List Char → List Char → Bool
  | [], [] => true
  | c :: cs, d :: ds => c.toLower == d.toLower && equalFoldChars cs ds
  | _, _ => false

/-- Case-insensitive key comparison used for struct field matching. -/
def equalFold (a b : String) : Bool :=
  equalFoldChars a.data b.data

/-- The zero value of `RequestConfig`: empty strings, nil maps. -/
def zeroRequestConfig : RequestConfig :=
  { url := "", method := "", headers := [], body := none }

/-- Model of encoding/json filling a `RequestConfig` struct from the fields of
a JSON object: keys are matched against the json tags `url`, `method`,
`headers`, `body` (ASCII case-insensitively, as encoding/json does), unknown
keys are skipped, and matched values decode into the current field value. -/
def decodeRequestConfigFields : List (String × Json) → RequestConfig →
    Except String RequestConfig
  | [], acc => .ok acc
  | (k, j) :: rest, acc =>
    if equalFold k "url" then
      match decodeStringInto acc.url j with
      | .error e => .error e
      | .ok v => decodeRequestConfigFields rest { acc with url := v }
    else if equalFold k "method" then
      match decodeStringInto acc.method j with
      | .error e => .error e
      | .ok v => decodeRequestConfigFields rest { acc with method := v }
    else if equalFold k "headers" then
      match decodeStringMapInto (some acc.headers) j with
      | .error e => .error e
      | .ok v => decodeRequestConfigFields rest
          { acc with headers := match v with | some m => m | none => [] }
    else if equalFold k "body" then
      match decodeStringMapInto acc.body j with
      | .error e => .error e
      | .ok v => decodeRequestConfigFields rest { acc with body := v }
    else
      decodeRequestConfigFields rest acc

/-- Model of encoding/json decoding a JSON value into a `RequestConfig`
currently holding `cur`: an object fills the struct field by field, null
leaves it untouched, any other value is a type error. -/
def decodeRequestConfigInto (cur : RequestConfig) : Json → Except String RequestConfig
  | .obj fields => decodeRequestConfigFields fields cur
  | .null => .ok cur
  | _ => .error "cannot unmarshal value into RequestConfig"

/-- Model of encoding/json decoding a JSON array into a `[]RequestConfig`
slice currently holding `cur`: element i decodes into the existing element i
when there is one and into a zero element otherwise, and the result has
exactly the length of the array. -/
def decodeRequestList : List RequestConfig → List Json → Except String (List RequestConfig)
  | _, [] => .ok []
  | cur, j :: rest =>
    match decodeRequestConfigInto (cur.headD zeroRequestConfig) j with
    | .error e => .error e
    | .ok c =>
      match decodeRequestList cur.tail rest with
      | .error e => .error e
      | .ok cs => .ok (c :: cs)

/-- Model of encoding/json decoding a JSON value into the `Requests` slice:
an array decodes element-wise, null leaves the slice untouched, any other
value is a type error. -/
def decodeRequestsInto (cur : List RequestConfig) : Json → Except String (List RequestConfig)
  | .arr elems => decodeRequestList cur elems
  | .null => .ok cur
  | _ => .error "cannot unmarshal value into field of type slice"

/-- Model of encoding/json filling a `Config` struct from the fields of a
JSON object: keys are matched against the json tag `requests` (ASCII
case-insensitively), unknown keys are skipped. -/
def decodeConfigFields : List (String × Json) → Config → Except String Config
  | [], acc => .ok acc
  | (k, j) :: rest, acc =>
    if equalFold k "requests" then
      match decodeRequestsInto acc.requests j with
      | .error e => .error e
      | .ok v => decodeConfigFields rest { acc with requests := v }
    else
      decodeConfigFields rest acc

/-- Model of encoding/json decoding a JSON value into a `Config`. -/
def decodeConfigInto (cur : Config) : Json → Except String Config
  | .obj fields => decodeConfigFields fields cur
  | .null => .ok cur
  | _ => .error "cannot unmarshal value into Config"

/-- Embedding of `loadConfigFromBody` (dispatcher.go:29): `json.Unmarshal`
into a zero `Config`.  The argument is the result of the external JSON lexer
on the body bytes: a lexing failure is already an `Except.error`. -/
def loadConfigFromBody (parsed : Except String Json) : Except String Config :=
  match parsed with
  | .error e => .error e
  | .ok j => decodeConfigInto { requests := [] } j

/-- Token characters of HTTP header field names (net/textproto). -/
def isTokenChar (c : Char) : Bool :=
  c.isAlphanum || c == '!' || c == '#' || c == '$' || c == '%' || c == '&' ||
    c == '\x27' || c == '*' || c == '+' || c == '-' || c == '.' || c == '^' ||
    c == '_' || c == '\x60' || c == '|' || c == '~'

/-- Canonicalisation pass of net/textproto over the characters of a header
key: a letter at the start or after a hyphen is uppercased, every other
letter is lowercased. -/
def canonChars : Bool → List Char → List Char
  | _, [] => []
  | upper, c :: cs =>
    let d := if upper then c.toUpper else c.toLower
    d :: canonChars (d == '-') cs

/-- Model of `textproto.CanonicalMIMEHeaderKey`: keys made of token
characters are canonicalised, any other key is returned unchanged. -/
def canonicalKey (s : String) : String :=
  if s.data.all isTokenChar then ⟨canonChars true s.data⟩ else s

/-- First value stored under a key in an association list. -/
def assocFind : List (String × String) → String → Option String
  | [], _ => none
  | (k, v) :: rest, q => if k = q then some v else assocFind rest q

/-- Model of `http.Header.Set` (dispatcher.go:55): the key is canonicalised
and every earlier value for it is replaced by the single new value. -/
def headerSet (h : List (String × String)) (k v : String) : List (String × String) :=
  (h.filter (fun p => p.1 != canonicalKey k)) ++ [(canonicalKey k, v)]

/-- Header lookup under key canonicalisation (model of `http.Header.Get`). -/
def headerGet (h : List (String × String)) (k : String) : Option String :=
  assocFind h (canonicalKey k)

/-- Model of `json.Marshal` on a `map[string]string`, at the level of the
JSON document it denotes (text serialisation is the external collaborator):
the object whose fields are the entries of the map. -/
def jsonOfMap (m : List (String × String)) : Json :=
  Json.obj (m.map (fun p => (p.1, Json.str p.2)))

/-- The outbound `*http.Request` as far as the program observes it: method,
target URL, body payload (`none` models a nil body reader) and header map. -/
structure HttpRequest where
  method : String
  url : String
  payload : Option Json
  header : List (String × String)

/-- An `*http.Response` as far as the program observes it: the result of
`ioutil.ReadAll` on its body. -/
structure HttpResponse where
  bodyRead : Except String String

/-- Oracle for the external net/http collaborators: `newRequestErr` is the
error (if any) of `http.NewRequest` — which depends only on method and URL,
never on the body reader — and `transmit` is `client.Do`. -/
structure Network where
  newRequestErr : String → String → Option String
  transmit : HttpRequest → Except String HttpResponse

/-- Observable trace of one `sendRequest` call: the strings sent to the
`results` channel, the requests handed to `client.Do` (in order), whether the
header-application loop ran, and the descriptor as the caller sees it after
the call returns. -/
structure SendTrace where
  outputs : List String
  sent : List HttpRequest
  headersApplied : Bool
  configAfter : RequestConfig

/-- The outbound request as `sendRequest` constructs it (dispatcher.go:42-56):
the marshalled body is attached exactly when the method is POST and the body
map is non-nil (dispatcher.go:42), and every entry of the headers map is
applied with `Header.Set` (dispatcher.go:54-56). -/
def builtRequest (config : RequestConfig) : HttpRequest :=
  { method := config.method
    url := config.url
    payload :=
      match config.body with
      | some b => if config.method = "POST" then some (jsonOfMap b) else none
      | none => none
    header := config.headers.foldl (fun h p => headerSet h p.1 p.2) [] }

/-- Embedding of `sendRequest` (dispatcher.go:35): build the outbound
request, bail out with an error line if construction fails (no transmission,
no header application), transmit once, and emit exactly one line — error or
response — on the results channel. -/
def sendRequest (net : Network) (config : RequestConfig) : SendTrace :=
  match net.newRequestErr config.method config.url with
  | some e =>
    { outputs := ["Error creating request for " ++ config.url ++ ": " ++ e],
      sent := [], headersApplied := false, configAfter := config }
  | none =>
    let req := builtRequest config
    match net.transmit req with
    | .error e =>
      { outputs := ["Error sending request to " ++ config.url ++ ": " ++ e],
        sent := [req], headersApplied := true, configAfter := config }
    | .ok resp =>
      match resp.bodyRead with
      | .error e =>
        { outputs := ["Error reading response from " ++ config.url ++ ": " ++ e],
          sent := [req], headersApplied := true, configAfter := config }
      | .ok body =>
        { outputs := ["Response from " ++ config.url ++ ": " ++ body],
          sent := [req], headersApplied := true, configAfter := config }

/-- The single outcome line a descriptor contributes to the stream. -/
def outcome (net : Network) (config : RequestConfig) : String :=
  (sendRequest net config).outputs.headD ""

/-- Embedding of the dispatch loop (dispatcher.go:93-108): every descriptor
runs `sendRequest` and publishes its lines on one shared channel, which is
closed after all of them are done.  The stream is listed here in submission
order; delivery order is unordered, so theorems quantify over permutations
of this list. -/
def dispatchStream (net : Network) (batch : List RequestConfig) : List String :=
  batch.flatMap (fun c => (sendRequest net c).outputs)

/-- The batch as the caller sees it after the dispatch call completes. -/
def dispatchFinalBatch (net : Network) (batch : List RequestConfig) : List RequestConfig :=
  batch.map (fun c => (sendRequest net c).configAfter)

/-- An inbound server request as `handleAPIRequest` observes it: its HTTP
method and the result of reading its body — the outer error is a failed
`ioutil.ReadAll`, the inner one a body that does not lex as JSON. -/
structure InboundRequest where
  method : String
  bodyRead : Except String (Except String Json)

/-- What the handler writes back: an `http.Error` with message and status
code, or the streamed outcome lines. -/
inductive HttpReply where
  | httpError (message : String) (status : Nat)
  | stream (lines : List String)
  deriving DecidableEq

/-- Embedding of `handleAPIRequest` (dispatcher.go:75): reject non-POST
methods with 405 before touching the body, turn body-read and batch-decode
failures into 400 errors, and otherwise stream the dispatch results. -/
def handleAPIRequest (net : Network) (r : InboundRequest) : HttpReply :=
  if r.method ≠ "POST" then
    .httpError "Only POST method is supported" 405
  else
    match r.bodyRead with
    | .error _ => .httpError "Failed to read request body" 400
    | .ok parsed =>
      match loadConfigFromBody parsed with
      | .error _ => .httpError "Failed to parse request body" 400
      | .ok config => .stream (dispatchStream net config.requests)

/-! Reference-semantics model for the frame claim.  Go maps are references
into a heap; `sendRequest` receives the descriptor struct by value but its
`Headers` and `Body` maps by reference.  The heap below holds every allocated
string map; descriptors hold indices into it.  Each execution unit only
writes the header map of its own freshly allocated request, so the
sequentialised heap threading below covers every interleaving of the
goroutines as far as caller-allocated cells are concerned. -/

/-- Heap of allocated Go string maps, addressed by index. -/
abbrev Heap := List (List (String × String))

/-- Dereference a map cell. -/
def heapGet (h : Heap) (r : Nat) : List (String × String) :=
  h.getD r []

/-- Allocate a fresh map cell, returning the new heap and its address. -/
def heapAlloc (h : Heap) (m : List (String × String)) : Heap × Nat :=
  (h ++ [m], h.length)

/-- Overwrite a map cell. -/
def heapWrite (h : Heap) (r : Nat) (m : List (String × String)) : Heap :=
  h.set r m

/-- A descriptor under reference semantics: the two maps live in the heap
(`none` models a nil map). -/
structure RequestConfigRef where
  url : String
  method : String
  headersRef : Option Nat
  bodyRef : Option Nat

/-- Read a possibly-nil map reference (ranging over a nil map visits
nothing). -/
def readMapRef (h : Heap) : Option Nat → List (String × String)
  | some r => heapGet h r
  | none => []

/-- The header-application loop of dispatcher.go:54-56 under reference
semantics: each `Header.Set` rewrites the request header cell `reqRef`. -/
def applyHeadersHeap (reqRef : Nat) : Heap → List (String × String) → Heap
  | hh, [] => hh
  | hh, p :: rest =>
    applyHeadersHeap reqRef (heapWrite hh reqRef (headerSet (heapGet hh reqRef) p.1 p.2)) rest

/-- Embedding of `sendRequest` under reference semantics: identical control
flow to `sendRequest`, with the body map read (marshalled), the headers map
read (ranged over), and the request header map — allocated fresh by
`http.NewRequest` — written by `Header.Set`. -/
def sendRequestHeap (net : Network) (h : Heap) (config : RequestConfigRef) :
    List String × Heap :=
  let payload : Option Json :=
    match config.bodyRef with
    | some r => if config.method = "POST" then some (jsonOfMap (heapGet h r)) else none
    | none => none
  match net.newRequestErr config.method config.url with
  | some e => (["Error creating request for " ++ config.url ++ ": " ++ e], h)
  | none =>
    let alloc := heapAlloc h []
    let h2 := applyHeadersHeap alloc.2 alloc.1 (readMapRef alloc.1 config.headersRef)
    let req : HttpRequest :=
      { method := config.method, url := config.url,
        payload := payload, header := heapGet h2 alloc.2 }
    let lines :=
      match net.transmit req with
      | .error e => ["Error sending request to " ++ config.url ++ ": " ++ e]
      | .ok resp =>
        match resp.bodyRead with
        | .error e => ["Error reading response from " ++ config.url ++ ": " ++ e]
        | .ok body => ["Response from " ++ config.url ++ ": " ++ body]
    (lines, h2)

/-- The dispatch loop under reference semantics, threading the heap through
the executions. -/
def dispatchHeap (net : Network) : Heap → List RequestConfigRef → List String × Heap
  | h, [] => ([], h)
  | h, c :: rest =>
    let step := sendRequestHeap net h c
    let tail := dispatchHeap net step.2 rest
    (step.1 ++ tail.1, tail.2)

/-! Basic facts about the executor trace and the dispatch stream. -/

/-- Every control path of `sendRequest` emits exactly one line. -/
theorem sendRequest_outputs_length (net : Network) (config : RequestConfig) :
    ((sendRequest net config).outputs).length = 1 := by
  rcases hc : net.newRequestErr config.method config.url with _ | e
  · rcases ht : net.transmit (builtRequest config) with e | resp
    · simp [sendRequest, hc, ht]
    · rcases hb : resp.bodyRead with e | body <;> simp [sendRequest, hc, ht, hb]
  · simp [sendRequest, hc]

/-- The one line `sendRequest` emits is `outcome`. -/
theorem sendRequest_outputs_eq (net : Network) (config : RequestConfig) :
    (sendRequest net config).outputs = [outcome net config] := by
  obtain ⟨s, hs⟩ := List.length_eq_one.mp (sendRequest_outputs_length net config)
  simp [outcome, hs]

/-- The dispatch stream is the per-descriptor outcome of each batch entry. -/
theorem dispatchStream_eq_map (net : Network) (batch : List RequestConfig) :
    dispatchStream net batch = batch.map (outcome net) := by
  induction batch with
  | nil => rfl
  | cons c rest ih =>
    simp only [dispatchStream, List.flatMap_cons, List.map_cons] at *
    rw [sendRequest_outputs_eq, ih]
    rfl

/-- The dispatch stream has one entry per descriptor. -/
theorem dispatchStream_length (net : Network) (batch : List RequestConfig) :
    (dispatchStream net batch).length = batch.length := by
  rw [dispatchStream_eq_map]
  exact List.length_map batch (outcome net)

/-! Concrete networks and descriptors used to exercise the theorems. -/

/-- A network where construction succeeds and every target answers with body
"hello". -/
def netOk : Network :=
  { newRequestErr := fun _ _ => none
    transmit := fun _ => Except.ok { bodyRead := Except.ok "hello" } }

/-- A network where construction succeeds and every connection is refused. -/
def netDown : Network :=
  { newRequestErr := fun _ _ => none
    transmit := fun _ => Except.error "connection refused" }

/-- A network where request construction always fails. -/
def netBadUrl : Network :=
  { newRequestErr := fun _ _ => some "missing protocol scheme"
    transmit := fun _ => Except.error "unreachable" }

/-- A plain GET descriptor for a reachable target. -/
def cfgOk : RequestConfig :=
  { url := "https://example.test/ok", method := "GET", headers := [], body := none }

/-- A plain GET descriptor for an unreachable target. -/
def cfgDown : RequestConfig :=
  { url := "https://example.test/down", method := "GET", headers := [], body := none }

/-- Claim C2: for every request descriptor, the executor terminates with
exactly one outcome on every control path — construction failure,
transmission failure, response-read failure or success all emit exactly one
line on the results channel, and no error escapes the executor (it is a total
function into a trace). -/
theorem c2_exactly_one_outcome (net : Network) (config : RequestConfig) :
    ((sendRequest net config).outputs).length = 1 :=
  sendRequest_outputs_length net config

/-- Claim C1: for every batch of N descriptors and every delivery order of
the stream, exactly N outcomes are delivered before the stream closes
(closure is the end of the finite stream), whatever the network does; the
empty batch yields the empty, immediately closed stream. -/
theorem c1_dispatch_completeness (net : Network) (batch : List RequestConfig)
    (stream : List String) (hperm : stream.Perm (dispatchStream net batch)) :
    stream.length = batch.length ∧ (batch = [] → stream = []) := by
  constructor
  · rw [hperm.length_eq, dispatchStream_length]
  · rintro rfl
    exact hperm.eq_nil

/-- Witness for C1 on a concrete one-element batch. -/
theorem c1_dispatch_completeness_witness :
    (dispatchStream netOk [cfgOk]).length = [cfgOk].length ∧
      ([cfgOk] = [] → dispatchStream netOk [cfgOk] = []) :=
  c1_dispatch_completeness netOk [cfgOk] (dispatchStream netOk [cfgOk]) (List.Perm.refl _)

/-- Claim C5: the outcome delivered for a descriptor is a function of that
descriptor and the network alone — its position in the stream holds
`outcome net cfg` no matter which siblings surround it, so changing, failing
or removing siblings cannot alter it, and dispatch itself (a total function)
has no failure mode. -/
theorem c5_outcome_isolation (net : Network) (pre post pre2 post2 : List RequestConfig)
    (cfg : RequestConfig) :
    (dispatchStream net (pre ++ cfg :: post)).get? pre.length = some (outcome net cfg) ∧
    (dispatchStream net (pre ++ cfg :: post)).get? pre.length =
      (dispatchStream net (pre2 ++ cfg :: post2)).get? pre2.length := by
  have key : ∀ a b : List RequestConfig,
      (dispatchStream net (a ++ cfg :: b)).get? a.length = some (outcome net cfg) := by
    intro a b
    rw [dispatchStream_eq_map]
    induction a with
    | nil => rfl
    | cons x xs ih => simpa using ih
  exact ⟨key pre post, by rw [key pre post, key pre2 post2]⟩

/-- Claim C10: the server path rejects every non-POST inbound request with
status 405 and the message "Only POST method is supported", whatever the body
holds — no body read, no batch decode, no dispatch. -/
theorem c10_non_post_rejected (net : Network) (r : InboundRequest)
    (h : r.method ≠ "POST") :
    handleAPIRequest net r = HttpReply.httpError "Only POST method is supported" 405 := by
  simp [handleAPIRequest, h]

/-- Witness for C10 on a concrete GET request whose body read would fail. -/
theorem c10_non_post_rejected_witness :
    handleAPIRequest netOk { method := "GET", bodyRead := Except.error "boom" } =
      HttpReply.httpError "Only POST method is supported" 405 :=
  c10_non_post_rejected netOk { method := "GET", bodyRead := Except.error "boom" } (by decide)

/-- Claim C3 (amended): the success line is "Response from {target}:
{responseBody}", and the failure lines carry a stage-specific phrase rather
than a uniform "Error {stage} for {target}" shape: "Error creating request
for {target}: {message}" for construction, "Error sending request to
{target}: {message}" for transmission, "Error reading response from
{target}: {message}" for response reading. -/
theorem c3_outcome_rendering (net : Network) (config : RequestConfig) :
    (∀ e, net.newRequestErr config.method config.url = some e →
      (sendRequest net config).outputs =
        ["Error creating request for " ++ config.url ++ ": " ++ e]) ∧
    (∀ e, net.newRequestErr config.method config.url = none →
      net.transmit (builtRequest config) = Except.error e →
      (sendRequest net config).outputs =
        ["Error sending request to " ++ config.url ++ ": " ++ e]) ∧
    (∀ resp e, net.newRequestErr config.method config.url = none →
      net.transmit (builtRequest config) = Except.ok resp →
      resp.bodyRead = Except.error e →
      (sendRequest net config).outputs =
        ["Error reading response from " ++ config.url ++ ": " ++ e]) ∧
    (∀ resp body, net.newRequestErr config.method config.url = none →
      net.transmit (builtRequest config) = Except.ok resp →
      resp.bodyRead = Except.ok body →
      (sendRequest net config).outputs =
        ["Response from " ++ config.url ++ ": " ++ body]) :=
  ⟨fun e hc => by simp [sendRequest, hc],
   fun e hc ht => by simp [sendRequest, hc, ht],
   fun resp e hc ht hb => by simp [sendRequest, hc, ht, hb],
   fun resp body hc ht hb => by simp [sendRequest, hc, ht, hb]⟩

/-- Witness for C3 (amended) on a concrete successful request. -/
theorem c3_outcome_rendering_witness :
    (sendRequest netOk cfgOk).outputs = ["Response from " ++ cfgOk.url ++ ": " ++ "hello"] :=
  (c3_outcome_rendering netOk cfgOk).2.2.2 { bodyRead := Except.ok "hello" } "hello" rfl rfl rfl

/-- Counterexample to C3 as stated: a refused connection renders as "Error
sending request to {target}: {message}", not "Error transmission for
{target}: {message}". -/
theorem c3_counterexample :
    (sendRequest netDown cfgDown).outputs =
      ["Error sending request to https://example.test/down: connection refused"] ∧
    (sendRequest netDown cfgDown).outputs ≠
      ["Error transmission for https://example.test/down: connection refused"] := by
  constructor
  · rfl
  · decide

/-- Claim C6: when construction fails the executor returns the
request-construction failure line immediately — nothing is transmitted and
the header loop never runs — and when construction succeeds exactly one
request (the built one) is transmitted, with no retries. -/
theorem c6_construction_gate (net : Network) (config : RequestConfig) :
    (∀ e, net.newRequestErr config.method config.url = some e →
      (sendRequest net config).outputs =
          ["Error creating request for " ++ config.url ++ ": " ++ e] ∧
        (sendRequest net config).sent = [] ∧
        (sendRequest net config).headersApplied = false) ∧
    (net.newRequestErr config.method config.url = none →
      (sendRequest net config).sent = [builtRequest config]) := by
  constructor
  · intro e hc
    exact ⟨by simp [sendRequest, hc], by simp [sendRequest, hc], by simp [sendRequest, hc]⟩
  · intro hc
    rcases ht : net.transmit (builtRequest config) with e | resp
    · simp [sendRequest, hc, ht]
    · rcases hb : resp.bodyRead with e | body <;> simp [sendRequest, hc, ht, hb]

/-- Witness for C6 on a network whose construction always fails. -/
theorem c6_construction_gate_witness :
    (sendRequest netBadUrl cfgOk).outputs =
        ["Error creating request for " ++ cfgOk.url ++ ": " ++ "missing protocol scheme"] ∧
      (sendRequest netBadUrl cfgOk).sent = [] ∧
      (sendRequest netBadUrl cfgOk).headersApplied = false :=
  (c6_construction_gate netBadUrl cfgOk).1 "missing protocol scheme" rfl

/-- A Go map write of a fresh key appends the pair. -/
theorem mapSet_append (m : List (String × String)) (k v : String)
    (h : ∀ p ∈ m, p.1 ≠ k) : mapSet m k v = m ++ [(k, v)] := by
  have hany : m.any (fun p => p.1 == k) = false := by
    rw [List.any_eq_false]
    intro p hp
    simpa using h p hp
  simp [mapSet, hany]

/-- Decoding the marshalled fields of a string map with unique keys extends
the accumulator by exactly those entries. -/
theorem decodeStringMapFields_roundtrip (b : List (String × String)) :
    ∀ acc, List.Pairwise (fun p q => p.1 ≠ q.1) b →
    (∀ p ∈ acc, ∀ q ∈ b, p.1 ≠ q.1) →
    decodeStringMapFields (b.map (fun p => (p.1, Json.str p.2))) acc = .ok (acc ++ b) := by
  induction b with
  | nil =>
    intro acc _ _
    simp [decodeStringMapFields]
  | cons q rest ih =>
    intro acc hpw hdisj
    obtain ⟨k, v⟩ := q
    obtain ⟨hhead, htail⟩ := List.pairwise_cons.mp hpw
    simp only [List.map_cons, decodeStringMapFields, decodeStringInto]
    rw [mapSet_append acc k v (fun p hp => hdisj p hp (k, v) (List.mem_cons_self _ _))]
    rw [ih (acc ++ [(k, v)]) htail ?_]
    · simp
    · intro p hp q2 hq2
      rcases List.mem_append.mp hp with hacc | hkv
      · exact hdisj p hacc q2 (List.mem_cons_of_mem _ hq2)
      · have : p = (k, v) := by simpa using hkv
        subst this
        exact hhead q2 hq2

/-- Unmarshalling the marshalled body map gives back the original mapping. -/
theorem jsonOfMap_roundtrip (b : List (String × String))
    (hpw : List.Pairwise (fun p q => p.1 ≠ q.1) b) :
    decodeStringMapInto none (jsonOfMap b) = .ok (some b) := by
  simp only [jsonOfMap, decodeStringMapInto]
  rw [decodeStringMapFields_roundtrip b [] hpw (by simp)]
  simp

/-- A POST descriptor whose `body` field is populated. -/
def cfgPost : RequestConfig :=
  { url := "https://example.test/posts", method := "POST"
    headers := [("Content-Type", "application/json")]
    body := some [("title", "foo")] }

/-- Claim C4: a POST descriptor with a present body map yields a request
whose payload is the marshalled map — and unmarshalling that payload gives
back the original mapping — while every other descriptor yields a request
with an empty payload. -/
theorem c4_body_attachment (config : RequestConfig) :
    (∀ b, config.method = "POST" → config.body = some b →
      (builtRequest config).payload = some (jsonOfMap b) ∧
        (List.Pairwise (fun p q => p.1 ≠ q.1) b →
          decodeStringMapInto none (jsonOfMap b) = .ok (some b))) ∧
    ((config.method ≠ "POST" ∨ config.body = none) →
      (builtRequest config).payload = none) := by
  constructor
  · intro b hm hb
    exact ⟨by simp [builtRequest, hb, hm], fun hpw => jsonOfMap_roundtrip b hpw⟩
  · rintro (hm | hb)
    · cases hcb : config.body <;> simp [builtRequest, hcb, hm]
    · simp [builtRequest, hb]

/-- Witness for C4 on a concrete POST descriptor with body map
title ↦ foo. -/
theorem c4_body_attachment_witness :
    (builtRequest cfgPost).payload = some (jsonOfMap [("title", "foo")]) ∧
      decodeStringMapInto none (jsonOfMap [("title", "foo")]) = .ok (some [("title", "foo")]) :=
  ⟨((c4_body_attachment cfgPost).1 [("title", "foo")] rfl rfl).1,
    ((c4_body_attachment cfgPost).1 [("title", "foo")] rfl rfl).2 (by simp)⟩

/-! Header application lemmas. -/

/-- Lookup distributes over append: the left list is consulted first. -/
theorem assocFind_append (l1 l2 : List (String × String)) (q : String) :
    assocFind (l1 ++ l2) q =
      (match assocFind l1 q with
       | some v => some v
       | none => assocFind l2 q) := by
  induction l1 with
  | nil => simp [assocFind]
  | cons x t ih =>
    obtain ⟨k, v⟩ := x
    by_cases hk : k = q
    · simp [assocFind, hk]
    · simp [assocFind, hk, ih]

/-- Lookup misses when no key matches. -/
theorem assocFind_eq_none (l : List (String × String)) (q : String)
    (h : ∀ p ∈ l, p.1 ≠ q) : assocFind l q = none := by
  induction l with
  | nil => rfl
  | cons x t ih =>
    rw [assocFind, if_neg (h x (List.mem_cons_self _ _))]
    exact ih fun p hp => h p (List.mem_cons_of_mem _ hp)

/-- Setting a header makes its value the one retrieved for that key. -/
theorem headerGet_headerSet_same (h : List (String × String)) (k v : String) :
    headerGet (headerSet h k v) k = some v := by
  unfold headerGet headerSet
  rw [assocFind_append]
  rw [assocFind_eq_none _ _ fun p hp => by simpa using (List.mem_filter.mp hp).2]
  simp [assocFind]

/-- Setting a header leaves every other canonical key untouched. -/
theorem headerGet_headerSet_ne (h : List (String × String)) (k k2 v : String)
    (hne : canonicalKey k2 ≠ canonicalKey k) :
    headerGet (headerSet h k v) k2 = headerGet h k2 := by
  have hkk2 : canonicalKey k ≠ canonicalKey k2 := fun hc => hne hc.symm
  unfold headerGet headerSet
  rw [assocFind_append]
  have hfilter :
      assocFind (h.filter fun p => p.1 != canonicalKey k) (canonicalKey k2) =
        assocFind h (canonicalKey k2) := by
    induction h with
    | nil => rfl
    | cons x t ih =>
      obtain ⟨k1, v1⟩ := x
      by_cases h1 : k1 = canonicalKey k
      · simp [List.filter_cons, h1, assocFind, hkk2, ih]
      · by_cases h2 : k1 = canonicalKey k2
        · simp [List.filter_cons, h1, h2, assocFind, hne, ih]
        · simp [List.filter_cons, h1, h2, assocFind, ih]
  rw [hfilter]
  cases hres : assocFind h (canonicalKey k2) with
  | none => simp [assocFind, hkk2]
  | some w => simp

/-- Folding `Header.Set` over entries whose canonical keys all differ from a
query leaves that query untouched. -/
theorem foldl_headerSet_not_mem (l : List (String × String)) :
    ∀ (h0 : List (String × String)) (q : String),
    (∀ p ∈ l, canonicalKey p.1 ≠ canonicalKey q) →
    headerGet (l.foldl (fun h p => headerSet h p.1 p.2) h0) q = headerGet h0 q := by
  induction l with
  | nil =>
    intro h0 q _
    rfl
  | cons x t ih =>
    intro h0 q hl
    rw [List.foldl_cons, ih _ q fun p hp => hl p (List.mem_cons_of_mem _ hp)]
    exact headerGet_headerSet_ne h0 x.1 q x.2
      fun hc => hl x (List.mem_cons_self _ _) hc.symm

/-- Folding `Header.Set` over a map whose canonical keys are pairwise
distinct retrieves every entry of the map. -/
theorem foldl_headerSet_mem (l : List (String × String)) :
    ∀ (h0 : List (String × String)) (k v : String),
    List.Pairwise (fun p q => canonicalKey p.1 ≠ canonicalKey q.1) l →
    (k, v) ∈ l →
    headerGet (l.foldl (fun h p => headerSet h p.1 p.2) h0) k = some v := by
  induction l with
  | nil =>
    intro _ _ _ _ hmem
    cases hmem
  | cons x t ih =>
    intro h0 k v hpw hmem
    obtain ⟨hhead, htail⟩ := List.pairwise_cons.mp hpw
    rcases List.mem_cons.mp hmem with heq | hmem2
    · subst heq
      rw [List.foldl_cons,
        foldl_headerSet_not_mem t _ k fun p hp hc => hhead p hp hc.symm]
      exact headerGet_headerSet_same h0 k v
    · rw [List.foldl_cons]
      exact ih _ k v htail hmem2

/-- Helper shared by several claims: a successful construction transmits
exactly the built request. -/
theorem sendRequest_sent_of_ok (net : Network) (config : RequestConfig)
    (hc : net.newRequestErr config.method config.url = none) :
    (sendRequest net config).sent = [builtRequest config] := by
  rcases ht : net.transmit (builtRequest config) with e | resp
  · simp [sendRequest, hc, ht]
  · rcases hb : resp.bodyRead with e | body <;> simp [sendRequest, hc, ht, hb]

/-- A GET descriptor carrying one header entry. -/
def cfgHdr : RequestConfig :=
  { url := "https://example.test/ok", method := "GET"
    headers := [("X", "2")], body := none }

/-- Claim C7: after successful construction every entry of the headers map is
applied onto the request — for a map whose canonical keys are pairwise
distinct, each key retrieves its mapped value from the transmitted request —
and a later `Header.Set` of the same key overrides an earlier one (last write
wins), the transmitted request being exactly the built one. -/
theorem c7_headers_applied :
    (∀ (config : RequestConfig) (k v : String),
      List.Pairwise (fun p q => canonicalKey p.1 ≠ canonicalKey q.1) config.headers →
      (k, v) ∈ config.headers →
      headerGet (builtRequest config).header k = some v) ∧
    (∀ (h : List (String × String)) (k v1 v2 : String),
      headerGet (headerSet (headerSet h k v1) k v2) k = some v2) ∧
    (∀ (net : Network) (config : RequestConfig),
      net.newRequestErr config.method config.url = none →
      (sendRequest net config).sent = [builtRequest config]) :=
  ⟨fun config k v hpw hmem => foldl_headerSet_mem config.headers [] k v hpw hmem,
   fun h k v1 v2 => headerGet_headerSet_same (headerSet h k v1) k v2,
   fun net config hc => sendRequest_sent_of_ok net config hc⟩

/-- Witness for C7: the header entry X ↦ 2 is carried by the transmitted
request, and setting X to 1 and then to 2 retrieves 2. -/
theorem c7_headers_applied_witness :
    headerGet (builtRequest cfgHdr).header "X" = some "2" ∧
      headerGet (headerSet (headerSet [] "X" "1") "X" "2") "X" = some "2" ∧
      (sendRequest netOk cfgHdr).sent = [builtRequest cfgHdr] :=
  ⟨c7_headers_applied.1 cfgHdr "X" "2" (by simp [cfgHdr]) (by simp [cfgHdr]),
   c7_headers_applied.2.1 [] "X" "1" "2",
   c7_headers_applied.2.2 netOk cfgHdr rfl⟩

/-! Heap lemmas for the frame claim. -/

/-- Writing one cell leaves every other cell unchanged. -/
theorem heapGet_heapWrite_ne (h : Heap) (r s : Nat) (m : List (String × String))
    (hne : r ≠ s) : heapGet (heapWrite h s m) r = heapGet h r := by
  simp only [heapGet, heapWrite, List.getD_eq_getElem?_getD]
  rw [List.getElem?_set_ne fun hc => hne hc.symm]

/-- Writing a cell that exists stores the value. -/
theorem heapGet_heapWrite_self (h : Heap) (r : Nat) (m : List (String × String))
    (hr : r < h.length) : heapGet (heapWrite h r m) r = m := by
  simp only [heapGet, heapWrite, List.getD_eq_getElem?_getD]
  rw [List.getElem?_set_self hr]
  rfl

/-- Writes preserve the heap size. -/
theorem heapWrite_length (h : Heap) (s : Nat) (m : List (String × String)) :
    (heapWrite h s m).length = h.length :=
  List.length_set h s m

/-- Appending an empty cell changes no read: existing cells read through, and
out-of-range reads give the empty default either way. -/
theorem heapGet_append_nil (h : Heap) (r : Nat) :
    heapGet (h ++ [[]]) r = heapGet h r := by
  rcases Nat.lt_or_ge r h.length with hr | hr
  · simp only [heapGet]
    exact List.getD_append _ _ _ _ hr
  · rcases Nat.eq_or_lt_of_le hr with heq | hlt
    · simp only [heapGet]
      rw [List.getD_eq_default _ _ hr, List.getD_append_right _ _ _ _ hr, heq.symm]
      simp
    · simp only [heapGet]
      rw [List.getD_eq_default _ _ hr, List.getD_eq_default]
      simp
      omega

/-- The header loop preserves the heap size. -/
theorem applyHeadersHeap_length (rr : Nat) (l : List (String × String)) :
    ∀ hh : Heap, (applyHeadersHeap rr hh l).length = hh.length := by
  induction l with
  | nil => intro hh; rfl
  | cons p rest ih =>
    intro hh
    rw [applyHeadersHeap, ih, heapWrite_length]

/-- The header loop writes only the request cell. -/
theorem applyHeadersHeap_get_ne (rr : Nat) (l : List (String × String)) :
    ∀ (hh : Heap) (r : Nat), r ≠ rr →
      heapGet (applyHeadersHeap rr hh l) r = heapGet hh r := by
  induction l with
  | nil => intro hh r _; rfl
  | cons p rest ih =>
    intro hh r hne
    rw [applyHeadersHeap, ih _ r hne, heapGet_heapWrite_ne _ _ _ _ hne]

/-- The header loop folds `Header.Set` over the request cell. -/
theorem applyHeadersHeap_get_self (rr : Nat) (l : List (String × String)) :
    ∀ hh : Heap, rr < hh.length →
      heapGet (applyHeadersHeap rr hh l) rr =
        l.foldl (fun h p => headerSet h p.1 p.2) (heapGet hh rr) := by
  induction l with
  | nil => intro hh _; rfl
  | cons p rest ih =>
    intro hh hrr
    rw [applyHeadersHeap, List.foldl_cons,
      ih _ (by rw [heapWrite_length]; exact hrr),
      heapGet_heapWrite_self _ _ _ hrr]

/-- The heap after one heap-model execution: unchanged on construction
failure, otherwise the original heap extended by the request cell and written
only there. -/
theorem sendRequestHeap_snd (net : Network) (h : Heap) (config : RequestConfigRef) :
    (sendRequestHeap net h config).2 = h ∨
      (sendRequestHeap net h config).2 =
        applyHeadersHeap h.length (h ++ [[]]) (readMapRef (h ++ [[]]) config.headersRef) := by
  rcases hc : net.newRequestErr config.method config.url with _ | e
  · right
    simp [sendRequestHeap, hc, heapAlloc]
  · left
    simp [sendRequestHeap, hc]

/-- One heap-model execution never shrinks the heap. -/
theorem sendRequestHeap_length_le (net : Network) (h : Heap) (config : RequestConfigRef) :
    h.length ≤ (sendRequestHeap net h config).2.length := by
  rcases sendRequestHeap_snd net h config with he | he <;> rw [he]
  rw [applyHeadersHeap_length]
  simp

/-- One heap-model execution leaves every caller-allocated cell unchanged. -/
theorem sendRequestHeap_preserve (net : Network) (h : Heap) (config : RequestConfigRef)
    (r : Nat) (hr : r < h.length) :
    heapGet (sendRequestHeap net h config).2 r = heapGet h r := by
  rcases sendRequestHeap_snd net h config with he | he <;> rw [he]
  rw [applyHeadersHeap_get_ne _ _ _ r (Nat.ne_of_lt hr)]
  exact heapGet_append_nil h r

/-- The whole dispatch loop leaves every caller-allocated cell unchanged. -/
theorem dispatchHeap_preserve (net : Network) (batch : List RequestConfigRef) :
    ∀ (h : Heap) (r : Nat), r < h.length →
      heapGet (dispatchHeap net h batch).2 r = heapGet h r := by
  induction batch with
  | nil => intro h r _; rfl
  | cons c rest ih =>
    intro h r hr
    have hle := sendRequestHeap_length_le net h c
    calc heapGet (dispatchHeap net h (c :: rest)).2 r
        = heapGet (dispatchHeap net (sendRequestHeap net h c).2 rest).2 r := rfl
      _ = heapGet (sendRequestHeap net h c).2 r := ih _ r (Nat.lt_of_lt_of_le hr hle)
      _ = heapGet h r := sendRequestHeap_preserve net h c r hr

/-- The descriptor a reference-semantics configuration denotes: the maps read
out of the heap. -/
def derefConfig (h : Heap) (c : RequestConfigRef) : RequestConfig :=
  { url := c.url, method := c.method,
    headers := readMapRef h c.headersRef,
    body := c.bodyRef.map (fun r => heapGet h r) }

/-- Reading any map reference is unaffected by allocating an empty cell. -/
theorem readMapRef_append_nil (h : Heap) (o : Option Nat) :
    readMapRef (h ++ [[]]) o = readMapRef h o := by
  cases o with
  | none => rfl
  | some r => exact heapGet_append_nil h r

/-- The heap model emits exactly the lines of the value model on the
dereferenced descriptor: the two embeddings of `sendRequest` agree. -/
theorem sendRequestHeap_outputs (net : Network) (h : Heap) (c : RequestConfigRef) :
    (sendRequestHeap net h c).1 = (sendRequest net (derefConfig h c)).outputs := by
  rcases hc : net.newRequestErr c.method c.url with _ | e
  · have hhdr :
        heapGet (applyHeadersHeap h.length (h ++ [[]]) (readMapRef (h ++ [[]]) c.headersRef))
            h.length =
          (readMapRef h c.headersRef).foldl (fun hh p => headerSet hh p.1 p.2) [] := by
      rw [readMapRef_append_nil, applyHeadersHeap_get_self _ _ _ (by simp)]
      have hempty : heapGet (h ++ [[]]) h.length = [] := by
        rw [heapGet_append_nil]
        simp [heapGet, List.getD_eq_default]
      rw [hempty]
    have hreq :
        ({ method := c.method, url := c.url,
           payload :=
             match c.bodyRef with
             | some r => if c.method = "POST" then some (jsonOfMap (heapGet h r)) else none
             | none => none,
           header :=
             heapGet
               (applyHeadersHeap h.length (h ++ [[]]) (readMapRef (h ++ [[]]) c.headersRef))
               h.length } : HttpRequest) = builtRequest (derefConfig h c) := by
      cases hcb : c.bodyRef <;> simp [builtRequest, derefConfig, hcb, hhdr]
    simp only [derefConfig] at hreq
    rcases ht : net.transmit (builtRequest (derefConfig h c)) with e | resp <;>
      simp only [derefConfig] at ht
    · simp [sendRequestHeap, sendRequest, derefConfig, hc, heapAlloc, hreq, ht]
    · rcases hb : resp.bodyRead with e | b <;>
        simp [sendRequestHeap, sendRequest, derefConfig, hc, heapAlloc, hreq, ht, hb]
  · simp [sendRequestHeap, sendRequest, derefConfig, hc]

/-- The caller-held descriptor value is returned unchanged by the executor. -/
theorem sendRequest_configAfter (net : Network) (config : RequestConfig) :
    (sendRequest net config).configAfter = config := by
  rcases hc : net.newRequestErr config.method config.url with _ | e
  · rcases ht : net.transmit (builtRequest config) with e | resp
    · simp [sendRequest, hc, ht]
    · rcases hb : resp.bodyRead with e | b <;> simp [sendRequest, hc, ht, hb]
  · simp [sendRequest, hc]

/-- Claim C8: neither the executor nor the dispatch loop mutates caller-owned
data: under reference semantics every map cell the caller allocated reads the
same after an execution (and after a whole dispatch) as before — the only
write target is the freshly allocated request header cell — and the
descriptor values (target, method and map references) are returned to the
caller unchanged. -/
theorem c8_no_caller_mutation (net : Network) (h : Heap) (r : Nat) (hr : r < h.length) :
    (∀ config : RequestConfigRef, heapGet (sendRequestHeap net h config).2 r = heapGet h r) ∧
    (∀ batch : List RequestConfigRef, heapGet (dispatchHeap net h batch).2 r = heapGet h r) ∧
    (∀ config : RequestConfig, (sendRequest net config).configAfter = config) ∧
    (∀ batch : List RequestConfig, dispatchFinalBatch net batch = batch) := by
  refine ⟨fun config => sendRequestHeap_preserve net h config r hr,
    fun batch => dispatchHeap_preserve net batch h r hr,
    fun config => sendRequest_configAfter net config,
    fun batch => ?_⟩
  simp [dispatchFinalBatch, sendRequest_configAfter]

/-- A reference-semantics descriptor whose headers map is cell 0. -/
def cfgRef : RequestConfigRef :=
  { url := "https://example.test/ok", method := "GET", headersRef := some 0, bodyRef := none }

/-- Witness for C8: a one-cell heap holding the header map X ↦ 1 is intact
after an execution that reads it and after a one-element dispatch. -/
theorem c8_no_caller_mutation_witness :
    heapGet (sendRequestHeap netOk [[("X", "1")]] cfgRef).2 0 = heapGet [[("X", "1")]] 0 ∧
      heapGet (dispatchHeap netOk [[("X", "1")]] [cfgRef]).2 0 = heapGet [[("X", "1")]] 0 ∧
      (sendRequest netOk cfgOk).configAfter = cfgOk ∧
      dispatchFinalBatch netOk [cfgOk] = [cfgOk] :=
  ⟨(c8_no_caller_mutation netOk [[("X", "1")]] 0 (by decide)).1 cfgRef,
   (c8_no_caller_mutation netOk [[("X", "1")]] 0 (by decide)).2.1 [cfgRef],
   (c8_no_caller_mutation netOk [[("X", "1")]] 0 (by decide)).2.2.1 cfgOk,
   (c8_no_caller_mutation netOk [[("X", "1")]] 0 (by decide)).2.2.2 [cfgOk]⟩

/-- Claim C9: batch decoding is lenient, not strict: a JSON object with no
`requests` field decodes to the empty batch — so submitting `{}` streams zero
outcome lines instead of a batch-decode error — unknown fields are skipped at
both the batch and the descriptor level, and a descriptor object with no
fields decodes to the zero descriptor (empty url, method, headers, absent
body). -/
theorem c9_lenient_decoding :
    (decodeConfigInto { requests := [] } (Json.obj []) = .ok { requests := [] }) ∧
    (∀ net : Network,
      handleAPIRequest net
          { method := "POST", bodyRead := .ok (.ok (Json.obj [])) } =
        HttpReply.stream []) ∧
    (∀ (k : String) (j : Json) (rest : List (String × Json)) (acc : Config),
      equalFold k "requests" = false →
      decodeConfigFields ((k, j) :: rest) acc = decodeConfigFields rest acc) ∧
    (∀ (k : String) (j : Json) (rest : List (String × Json)) (acc : RequestConfig),
      equalFold k "url" = false → equalFold k "method" = false →
      equalFold k "headers" = false → equalFold k "body" = false →
      decodeRequestConfigFields ((k, j) :: rest) acc = decodeRequestConfigFields rest acc) ∧
    (decodeRequestConfigInto zeroRequestConfig (Json.obj []) = .ok zeroRequestConfig) := by
  refine ⟨rfl, fun net => rfl,
    fun k j rest acc hk => ?_,
    fun k j rest acc h1 h2 h3 h4 => ?_, rfl⟩
  · simp [decodeConfigFields, hk]
  · simp [decodeRequestConfigFields, h1, h2, h3, h4]

/-- Witness for C9: an unknown batch-level field and an unknown
descriptor-level field are both skipped. -/
theorem c9_lenient_decoding_witness :
    decodeConfigFields [("comment", Json.str "x")] { requests := [] } =
        decodeConfigFields [] { requests := [] } ∧
      decodeRequestConfigFields [("timeout", Json.num 5)] zeroRequestConfig =
        decodeRequestConfigFields [] zeroRequestConfig :=
  ⟨c9_lenient_decoding.2.2.1 "comment" (Json.str "x") [] { requests := [] } (by decide),
   c9_lenient_decoding.2.2.2.1 "timeout" (Json.num 5) [] zeroRequestConfig
     (by decide) (by decide) (by decide) (by decide)⟩

end ApiDispatcher
